import Mathlib

/-
Verification of the SupplyChain request admission and metering plane.

This file shallowly embeds the core of the Go sources:
  internal/ratelimit/manager.go      (Redis-backed Manager)
  internal/middleware/limits.go      (in-memory RateQuotaEnforcer)
  internal/middleware/limits_redis.go (RedisRateQuotaEnforcer)
  internal/usage/aggregator.go       (FlushOnce)
  internal/api (stripeWebhook)       (billing webhook processor)
  internal/auth/keys.go, repo.go     (API key generate/parse/lookup/verify)

Modelling conventions:
  - The Redis counter store is an association list from string keys to
    natural-number values; a lookup miss reads as 0, matching redis.Nil
    handling in the Go code.  Writes prepend and shadow older entries.
  - TTLs are not modelled: every key already carries its minute window or
    its month, so expiry never changes the value an operation observes.
  - Wall-clock time is a record carrying the quantities the Go code
    derives from time.Now(): the unix second, the formatted month string,
    and the unix seconds of the start and end of the current month.
  - I/O errors are not modelled; every store call succeeds.
-/

namespace SupplyChain

/-- Association list lookup over string keys: the Go map / Redis GET. -/
def alookup {α : Type} : List (String × α) → String → Option α
  | [], _ => none
  | (k, v) :: rest, key => if k = key then some v else alookup rest key

/-- Association list write; newer entries shadow older ones. -/
def aset {α : Type} (s : List (String × α)) (k : String) (v : α) : List (String × α) :=
  (k, v) :: s

/-- Redis counter store: integer-valued keys, absent key reads as 0. -/
abbrev RedisState := List (String × Nat)

/-- Redis GET of an integer counter; redis.Nil is read as 0, as in the Go code. -/
def rget (s : RedisState) (k : String) : Nat := (alookup s k).getD 0

/-- Redis INCR: write back the old value plus one. -/
def rincr (s : RedisState) (k : String) : RedisState := aset s k (rget s k + 1)

@[simp]
theorem alookup_aset_self {α : Type} (s : List (String × α)) (k : String) (v : α) :
    alookup (aset s k v) k = some v := by
  simp [aset, alookup]

@[simp]
theorem alookup_aset_ne {α : Type} (s : List (String × α)) (k k' : String) (v : α)
    (h : k ≠ k') : alookup (aset s k v) k' = alookup s k' := by
  simp [aset, alookup, h]

@[simp]
theorem rget_rincr_self (s : RedisState) (k : String) : rget (rincr s k) k = rget s k + 1 := by
  simp [rincr, rget]

@[simp]
theorem rget_rincr_ne (s : RedisState) (k k' : String) (h : k ≠ k') :
    rget (rincr s k) k' = rget s k' := by
  simp [rincr, rget, h]

/-- Wall-clock instant, carrying the derived quantities the Go code computes
from time.Now().UTC(): the unix second, the "200601" month string, and the
unix seconds of Date(Y,M,1) and Date(Y,M+1,1). -/
structure Time where
  unix : Nat
  monthStr : String
  periodStart : Nat
  periodEnd : Nat
deriving DecidableEq

/-- Rate-window key "rl:{key}:{METHOD}:{PATH}:{minute-window}" from Manager.CheckRate. -/
def rateKey (apiKeyID method path : String) (window : Nat) : String :=
  "rl:" ++ apiKeyID ++ ":" ++ method ++ ":" ++ path ++ ":" ++ toString window

/-- Monthly total key "quota:{key}:{YYYYMM}:total". -/
def quotaTotalKey (apiKeyID month : String) : String :=
  "quota:" ++ apiKeyID ++ ":" ++ month ++ ":total"

/-- Per-endpoint monthly key "quota:{key}:{YYYYMM}:ep:{METHOD}:{PATH}". -/
def quotaEpKey (apiKeyID month method path : String) : String :=
  "quota:" ++ apiKeyID ++ ":" ++ month ++ ":ep:" ++ method ++ ":" ++ path

/-- Trial usage key "trial:{account}:used". -/
def trialKey (accountID : String) : String :=
  "trial:" ++ accountID ++ ":used"

/-- Character-list prefix test, modelling the SCAN pattern match of
"quota:{key}:{month}:ep:*" against a stored key. -/
def listIsPrefixOf : List Char → List Char → Bool
  | [], _ => true
  | _ :: _, [] => false
  | a :: as, b :: bs => a = b && listIsPrefixOf as bs

/-- Left-to-right split of a character list on the literal separator
":ep:", modelling strings.Split(k, ":ep:") as used by ListEndpointUsage. -/
def splitEp : List Char → List (List Char)
  | [] => [[]]
  | ':' :: 'e' :: 'p' :: ':' :: rest => [] :: splitEp rest
  | c :: rest =>
    match splitEp rest with
    | [] => [[c]]
    | g :: gs => (c :: g) :: gs

/-- The Redis-backed rate limiting and quota manager of
internal/ratelimit/manager.go, with the plan limits NewManager seeds. -/
structure Manager where
  redis : RedisState
  liteRPM : Nat := 20
  liteMonthlyQuota : Nat := 450000
  proRPM : Nat := 60
  proMonthlyQuota : Nat := 1350000
deriving DecidableEq

/-- ASCII lowercase of a Go string, modelling strings.ToLower on the plan
codes the code compares (no plan code leaves ASCII). -/
def toLowerStr (s : String) : String := String.mk (s.data.map Char.toLower)

/-- PlanLimits returns (rpm, monthly quota) for a plan code; "pro"
(case-insensitively) selects the pro limits, anything else the lite limits. -/
def Manager.PlanLimits (m : Manager) (planCode : String) : Nat × Nat :=
  if toLowerStr planCode = "pro" then (m.proRPM, m.proMonthlyQuota)
  else (m.liteRPM, m.liteMonthlyQuota)

/-- Result of Manager.CheckRate: the decision, the reset seconds, and the
post-call manager state. -/
structure RateResult where
  allowed : Bool
  resetSec : Nat
  m : Manager
deriving DecidableEq

/-- CheckRate from manager.go: INCR the minute-window bucket (pipelined with
an EXPIRE, not modelled), then deny exactly when the post-increment count
exceeds rpm, with reset = seconds until the window ends. -/
def Manager.CheckRate (m : Manager) (now : Time) (apiKeyID method path : String)
    (rpm : Nat) : RateResult :=
  let window := now.unix / 60
  let rk := rateKey apiKeyID method path window
  let redis1 := rincr m.redis rk
  let count := rget redis1 rk
  if count > rpm then
    ⟨false, 60 - now.unix % 60, { m with redis := redis1 }⟩
  else
    ⟨true, 0, { m with redis := redis1 }⟩

/-- GetQuota: read the monthly total for the current period (0 when absent). -/
def Manager.GetQuota (m : Manager) (apiKeyID : String) (now : Time) : Nat :=
  rget m.redis (quotaTotalKey apiKeyID now.monthStr)

/-- IncQuota: INCR both the monthly total and the per-endpoint counter
(Expire calls not modelled). -/
def Manager.IncQuota (m : Manager) (apiKeyID method path : String) (now : Time) : Manager :=
  let redis1 := rincr m.redis (quotaTotalKey apiKeyID now.monthStr)
  let redis2 := rincr redis1 (quotaEpKey apiKeyID now.monthStr method path)
  { m with redis := redis2 }

/-- GetTrialUsage: read the per-account trial counter (0 when absent). -/
def Manager.GetTrialUsage (m : Manager) (accountID : String) : Nat :=
  rget m.redis (trialKey accountID)

/-- IncTrialUsage: INCR the per-account trial counter. -/
def Manager.IncTrialUsage (m : Manager) (accountID : String) : Manager :=
  { m with redis := rincr m.redis (trialKey accountID) }

/-- ListEndpointUsage: SCAN for "quota:{key}:{month}:ep:*", GET each hit,
and keep the part after ":ep:" as the endpoint label. -/
def Manager.ListEndpointUsage (m : Manager) (apiKeyID : String) (now : Time) :
    List (String × Nat) :=
  m.redis.filterMap (fun kv =>
    if listIsPrefixOf ("quota:" ++ apiKeyID ++ ":" ++ now.monthStr ++ ":ep:").data kv.1.data then
      match splitEp kv.1.data with
      | [_, ep] => some (String.mk ep, rget m.redis kv.1)
      | _ => none
    else none)

/-- SumQuotas: sum GetQuota over a list of api key ids. -/
def Manager.SumQuotas (m : Manager) (apiKeyIDs : List String) (now : Time) : Nat :=
  apiKeyIDs.foldl (fun acc id => acc + m.GetQuota id now) 0

/-- Authenticated caller metadata from internal/auth/context.go. -/
structure Principal where
  accountID : String
  apiKeyID : String
  planCode : String
  clientType : String
  overageEnabled : Bool
deriving DecidableEq

/-- Observable outcome of an admission middleware on one request:
pass = forwarded with no checks or accounting; allow = admitted after the
checks with the post-handler accounting performed; the deny cases carry the
Retry-After value (in seconds) the middleware emits with its 429. -/
inductive Outcome where
  | pass
  | allow
  | denyRate (retryAfter : Nat)
  | denyQuota (retryAfter : Nat)
  | denyTrial (retryAfter : Nat)
deriving DecidableEq

/-- Result of one request through RedisRateQuotaEnforcer: the outcome and
the manager (counter store) state afterwards. -/
structure EnforceResult where
  outcome : Outcome
  m : Manager
deriving DecidableEq

/-- Value of the injected subscriptionActiveCheck global: false when no
checker was injected (the nil check in limits_redis.go). -/
def subActiveVal (subActive : Option (String → Bool)) (acct : String) : Bool :=
  match subActive with
  | some f => f acct
  | none => false

/-- Body of RedisRateQuotaEnforcer (limits_redis.go) for a non-nil manager
and a resolved principal: rate check, then quota pre-check when overage is
disabled, then trial cap when no active/trialing subscription, then the
handler followed by the post-increments.  subActive models the injected
subscriptionActiveCheck function (none when no checker was injected). -/
def RedisRateQuotaEnforcer (m : Manager) (p : Principal)
    (subActive : Option (String → Bool)) (now : Time) (method path : String) :
    EnforceResult :=
  let limits := m.PlanLimits p.planCode
  let rpm := limits.1
  let monthly := limits.2
  let rr := m.CheckRate now p.apiKeyID method path rpm
  if rr.allowed = false then ⟨.denyRate rr.resetSec, rr.m⟩
  else
    let m1 := rr.m
    if p.overageEnabled = false ∧ m1.GetQuota p.apiKeyID now ≥ monthly then
      ⟨.denyQuota (now.periodEnd - now.unix), m1⟩
    else
      let active := subActiveVal subActive p.accountID
      if active = false ∧ m1.GetTrialUsage p.accountID ≥ 10 then
        ⟨.denyTrial 3600, m1⟩
      else
        let m2 := m1.IncQuota p.apiKeyID method path now
        let m3 := m2.IncTrialUsage p.accountID
        ⟨.allow, m3⟩

/-- RedisRateQuotaEnforcer including its two early-return guards: a nil
manager or an absent principal forwards the request untouched. -/
def RedisRateQuotaEnforcerOpt (mq : Option Manager) (pq : Option Principal)
    (subActive : Option (String → Bool)) (now : Time) (method path : String) :
    Outcome × Option Manager :=
  match mq with
  | none => (.pass, none)
  | some m =>
    match pq with
    | none => (.pass, some m)
    | some p =>
      let r := RedisRateQuotaEnforcer m p subActive now method path
      (r.outcome, some r.m)

/-- Plan limit constants at the top of limits.go. -/
def liteRPM : Nat := 20

/-- Lite plan monthly quota from limits.go. -/
def liteMonthlyQuota : Nat := 450000

/-- Pro plan per-endpoint RPM from limits.go. -/
def proRPM : Nat := 60

/-- Pro plan monthly quota from limits.go. -/
def proMonthlyQuota : Nat := 1350000

/-- Per-account total trial allowance from limits.go. -/
def trialTotalAllowed : Nat := 10

/-- Rate bucket of the in-memory enforcer (limits.go). -/
structure Bucket where
  windowStart : Nat
  count : Nat
deriving DecidableEq

/-- Per-key (and per-account) usage record of the in-memory enforcer. -/
structure UsageRec where
  periodStart : Nat
  periodEnd : Nat
  perEndpoint : List (String × Nat)
  total : Nat
  trialUsed : Nat
deriving DecidableEq

/-- Mutable shared state rqState of the in-memory enforcer. -/
structure RQState where
  buckets : List (String × Bucket)
  usageByAK : List (String × UsageRec)
  usageByAC : List (String × UsageRec)
deriving DecidableEq

/-- Body of the in-memory RateQuotaEnforcer (limits.go): fetch or reset the
rate bucket and the two usage records, then check the trial cap, then the
monthly quota, then the per-endpoint rate, denying on the first failure;
otherwise reserve a rate token, run the handler, and do the post-handler
accounting (total, per-endpoint, trialUsed each incremented).  An absent
principal forwards the request untouched. -/
def RateQuotaEnforcer (st : RQState) (pq : Option Principal) (now : Time)
    (method path : String) : Outcome × RQState :=
  match pq with
  | none => (.pass, st)
  | some p =>
    let rpm := if toLowerStr p.planCode = "pro" then proRPM else liteRPM
    let monthly := if toLowerStr p.planCode = "pro" then proMonthlyQuota else liteMonthlyQuota
    let bucketKey := p.apiKeyID ++ "|" ++ method ++ "|" ++ path
    let b := match alookup st.buckets bucketKey with
      | some b0 => if now.unix - b0.windowStart ≥ 60 then ⟨now.unix, 0⟩ else b0
      | none => ⟨now.unix, 0⟩
    let u := match alookup st.usageByAK p.apiKeyID with
      | some u0 => if u0.periodStart = now.periodStart then u0
          else ⟨now.periodStart, now.periodEnd, [], 0, 0⟩
      | none => ⟨now.periodStart, now.periodEnd, [], 0, 0⟩
    let ua := match alookup st.usageByAC p.accountID with
      | some u0 => if u0.periodStart = now.periodStart then u0
          else ⟨now.periodStart, now.periodEnd, [], 0, 0⟩
      | none => ⟨now.periodStart, now.periodEnd, [], 0, 0⟩
    let st1 : RQState :=
      ⟨aset st.buckets bucketKey b, aset st.usageByAK p.apiKeyID u,
       aset st.usageByAC p.accountID ua⟩
    if ua.trialUsed ≥ trialTotalAllowed then
      (.denyTrial 3600, st1)
    else if u.total ≥ monthly ∧ p.overageEnabled = false then
      (.denyQuota (now.periodEnd - now.unix), st1)
    else if b.count ≥ rpm then
      (.denyRate (60 - (now.unix - b.windowStart)), st1)
    else
      let b2 : Bucket := ⟨b.windowStart, b.count + 1⟩
      let u2 : UsageRec := ⟨u.periodStart, u.periodEnd,
        aset u.perEndpoint (method ++ ":" ++ path)
          ((alookup u.perEndpoint (method ++ ":" ++ path)).getD 0 + 1),
        u.total + 1, u.trialUsed⟩
      let ua2 : UsageRec := ⟨ua.periodStart, ua.periodEnd, ua.perEndpoint,
        ua.total, ua.trialUsed + 1⟩
      (.allow,
       ⟨aset st1.buckets bucketKey b2, aset st1.usageByAK p.apiKeyID u2,
        aset st1.usageByAC p.accountID ua2⟩)

/-- Conflict target of the usage_aggregates upsert:
(account_id, api_key_id, period_start, period_end). -/
structure AggKey where
  accountID : String
  apiKeyID : String
  periodStart : Nat
  periodEnd : Nat
deriving DecidableEq

/-- Payload columns of a usage_aggregates row. -/
structure AggVal where
  totalRequests : Nat
  perEndpoint : List (String × Nat)
deriving DecidableEq

/-- The usage_aggregates table, as a partial map on its unique key. -/
def AggDB : Type := AggKey → Option AggVal

/-- INSERT ... ON CONFLICT (account_id, api_key_id, period_start, period_end)
DO UPDATE SET total_requests = EXCLUDED.total_requests,
per_endpoint = EXCLUDED.per_endpoint: the row is replaced, not added to. -/
def upsertAgg (db : AggDB) (k : AggKey) (v : AggVal) : AggDB :=
  fun k2 => if k2 = k then some v else db k2

/-- FlushOnce from internal/usage/aggregator.go: for every active
(account_id, key_prefix) pair, read the monthly total and the per-endpoint
usage from the counter store and upsert one usage_aggregates row keyed by
the current period. -/
def FlushOnce (pairs : List (String × String)) (m : Manager) (now : Time)
    (db : AggDB) : AggDB :=
  pairs.foldl (fun acc pr =>
    upsertAgg acc ⟨pr.1, pr.2, now.periodStart, now.periodEnd⟩
      ⟨m.GetQuota pr.2 now, m.ListEndpointUsage pr.2 now⟩) db

/-- Subscriptions table row (db/migrations/0001_auth_billing_usage.sql). -/
structure SubRow where
  accountID : String
  planCode : String
  overageEnabled : Bool
  stripeCustomerID : String
  stripeSubscriptionID : String
  status : String
  currentPeriodStart : Nat
  currentPeriodEnd : Nat
deriving DecidableEq

/-- Invoice line as the webhook reads it: the price id when li.Price is
non-nil, and the subscription item id. -/
structure InvoiceLine where
  priceID : Option String
  subItem : String
deriving DecidableEq

/-- Payload of a Stripe event, one constructor per case of the switch in
stripeWebhook; otherEvent covers every unhandled event type. -/
inductive EventData where
  | checkoutCompleted (subProvided : Bool) (customerID subID clientRef metaPlanCode : String)
  | subCreatedOrUpdated (metaPlanCode metaOverage metaAccount : String)
      (periodStart periodEnd : Nat) (status subID : String)
  | invoiceFinalized (subID : Option String) (lines : List InvoiceLine)
  | subDeleted (subID : String)
  | otherEvent
deriving DecidableEq

/-- Durable billing state the webhook handler touches: the subscriptions
table and the processed_events table (as the list of recorded event ids). -/
structure BillingDB where
  subscriptions : List SubRow
  processedEvents : List String
deriving DecidableEq

/-- Result of one webhook delivery: HTTP status, database afterwards, and
the meter-usage reports issued (subscription-item id, quantity). -/
structure WebhookResult where
  statusCode : Nat
  db : BillingDB
  reports : List (String × Int)
deriving DecidableEq

/-- stripeWebhook from the api package: verify the signature (400 and no
side effect on failure), then dispatch on the event type.  cfgMeteredPrice
is Billing.PriceOverageMetered; mgrq is the getRateLimiter() global;
keyIDsOf models ListAPIKeyIDsByAccount.  Every branch answers 200. -/
def stripeWebhook (cfgMeteredPrice : String) (mgrq : Option Manager)
    (keyIDsOf : String → List String) (now : Time) (db : BillingDB)
    (sigValid : Bool) (evtID : String) (data : EventData) : WebhookResult :=
  if sigValid = false then ⟨400, db, []⟩
  else
    match data with
    | .checkoutCompleted true custID subID clientRef _ =>
      ⟨200,
       { db with subscriptions := db.subscriptions.map (fun r =>
           if r.accountID = clientRef then
             { r with stripeCustomerID := custID, stripeSubscriptionID := subID,
                      status := "active" }
           else r) },
       []⟩
    | .checkoutCompleted false _ _ clientRef metaPlan =>
      if db.subscriptions.any (fun r => r.accountID = clientRef) then ⟨200, db, []⟩
      else
        ⟨200,
         { db with subscriptions :=
             db.subscriptions ++ [⟨clientRef, metaPlan, false, "", "", "trialing", 0, 0⟩] },
         []⟩
    | .subCreatedOrUpdated metaPlan metaOver metaAcct pStart pEnd status subID =>
      ⟨200,
       { db with subscriptions := db.subscriptions.map (fun r =>
           if r.stripeSubscriptionID = subID ∨ r.accountID = metaAcct then
             { r with planCode := metaPlan, overageEnabled := metaOver = "true",
                      status := status, currentPeriodStart := pStart,
                      currentPeriodEnd := pEnd }
           else r) },
       []⟩
    | .invoiceFinalized subIDq lines =>
      match subIDq with
      | none => ⟨200, db, []⟩
      | some subID =>
        match db.subscriptions.find? (fun r => r.stripeSubscriptionID = subID) with
        | none => ⟨200, db, []⟩
        | some row =>
          if row.overageEnabled then
            match mgrq with
            | none => ⟨200, db, []⟩
            | some mgr =>
              let ids := keyIDsOf row.accountID
              let total := mgr.SumQuotas ids now
              let monthly := (mgr.PlanLimits row.planCode).2
              let overUnits : Int := (total : Int) - (monthly : Int)
              if overUnits > 0 then
                match lines.find? (fun li => li.priceID = some cfgMeteredPrice) with
                | some li =>
                  if li.subItem = "" then ⟨200, db, []⟩
                  else ⟨200, db, [(li.subItem, overUnits)]⟩
                | none => ⟨200, db, []⟩
              else ⟨200, db, []⟩
          else ⟨200, db, []⟩
    | .subDeleted subID =>
      ⟨200,
       { db with subscriptions := db.subscriptions.map (fun r =>
           if r.stripeSubscriptionID = subID then { r with status := "canceled" } else r) },
       []⟩
    | .otherEvent => ⟨200, db, []⟩

/-- Go strings in the key-format module are modelled as character lists so
that splitting on the underscore separator is structurally recursive. -/
abbrev Str : Type := List Char

/-- strings.Split(raw, "_"): split at every underscore, keeping empty
segments, as Go does. -/
def splitUnders : Str → List Str
  | [] => [[]]
  | c :: cs =>
    let rest := splitUnders cs
    if c = '_' then [] :: rest
    else
      match rest with
      | [] => [[c]]
      | g :: gs => (c :: g) :: gs

/-- GenerateAPIKey's raw-key construction "sc_{env}_{id}_{secret}"
(internal/auth/keys.go).  The id and secret arguments stand for the two
randomToken outputs (12 and 32 URL-safe base64 characters); hashing of the
secret is outside this claim. -/
def GenerateAPIKey (env id secret : Str) : Str :=
  "sc".toList ++ ['_'] ++ env ++ ['_'] ++ id ++ ['_'] ++ secret

/-- ParseAPIKey (internal/auth/keys.go): split on underscores, require
exactly four parts with the first equal to "sc", and return (env, id,
secret); none models ok=false. -/
def ParseAPIKey (raw : Str) : Option (Str × Str × Str) :=
  match splitUnders raw with
  | [p0, p1, p2, p3] => if p0 = "sc".toList then some (p1, p2, p3) else none
  | _ => none

/-- Row of the api_keys table as LookupAPIKey selects it. -/
structure KeyRow where
  rowID : Str
  accountID : Str
  keyPref : Str
  keyHash : Str
  clientType : Str
  status : Str
deriving DecidableEq

/-- Principal-shaped record LookupAPIKey returns (internal/auth/repo.go). -/
structure APIKeyRecord where
  accountID : String
  apiKeyID : String
  planCode : String
  clientType : String
  overageEnabled : Bool
deriving DecidableEq

/-- LookupAPIKey (internal/auth/repo.go): parse the raw key; select the
api_keys row with that key_prefix and status active, LEFT JOINed to the
account's active-or-trialing subscription (plan defaults to lite, overage
to false); verify the secret against the stored hash (verifyHash models
bcrypt.CompareHashAndPassword); none models every error return. -/
def LookupAPIKey (verifyHash : Str → Str → Bool) (table : List KeyRow)
    (subs : List SubRow) (dbConfigured : Bool) (rawKey : Str) :
    Option APIKeyRecord :=
  if dbConfigured = false then none
  else
    match ParseAPIKey rawKey with
    | none => none
    | some (_env, id, secret) =>
      match table.find? (fun r => r.keyPref = id ∧ r.status = "active".toList) with
      | none => none
      | some r =>
        if verifyHash secret r.keyHash then
          let sub := subs.find? (fun s =>
            s.accountID = String.mk r.accountID ∧
              (s.status = "active" ∨ s.status = "trialing"))
          some { accountID := String.mk r.accountID,
                 apiKeyID := String.mk r.rowID,
                 planCode := (sub.map (fun s => s.planCode)).getD "lite",
                 clientType := String.mk r.clientType,
                 overageEnabled := (sub.map (fun s => s.overageEnabled)).getD false }
        else none

/-- Result of VerifyAPIKey: unauthorized models every error return, and
principal the successfully attached caller. -/
inductive VerifyOutcome where
  | unauthorized
  | principal (p : Principal)
deriving DecidableEq

/-- VerifyAPIKey (src/unnamed/part_019): reject an empty key or an invalid
client type; try the DB-backed lookup when a configured database is in the
request context; and otherwise fall back to the permissive synthetic
acc_dev principal — there is no pass-through flag guarding the fallback. -/
def VerifyAPIKey (key : Str) (clientType : String) (dbConfigured : Bool)
    (verifyHash : Str → Str → Bool) (table : List KeyRow) (subs : List SubRow) :
    VerifyOutcome :=
  if key = [] then .unauthorized
  else if clientType ≠ "agent" ∧ clientType ≠ "human" ∧ clientType ≠ "" then
    .unauthorized
  else
    match (if dbConfigured then LookupAPIKey verifyHash table subs true key
           else none) with
    | some rec =>
      .principal ⟨rec.accountID, rec.apiKeyID, rec.planCode, rec.clientType,
                  rec.overageEnabled⟩
    | none => .principal ⟨"acc_dev", "key_dev", "lite", clientType, false⟩

/-- Rate-window keys live under the "rl:" namespace and never collide with
monthly-total keys under "quota:". -/
theorem rateKey_ne_quotaTotalKey (a b c : String) (w : Nat) (d e : String) :
    rateKey a b c w ≠ quotaTotalKey d e := by
  intro h
  have h2 := congrArg (fun s => s.data.head?) h
  simp [rateKey, quotaTotalKey, String.data_append] at h2

/-- Rate-window keys never collide with trial-usage keys. -/
theorem rateKey_ne_trialKey (a b c : String) (w : Nat) (d : String) :
    rateKey a b c w ≠ trialKey d := by
  intro h
  have h2 := congrArg (fun s => s.data.head?) h
  simp [rateKey, trialKey, String.data_append] at h2

/-- Trial-usage keys never collide with monthly-total keys. -/
theorem trialKey_ne_quotaTotalKey (a d e : String) :
    trialKey a ≠ quotaTotalKey d e := by
  intro h
  have h2 := congrArg (fun s => s.data.head?) h
  simp [trialKey, quotaTotalKey, String.data_append] at h2

/-- For one api key and month, the per-endpoint key differs from the total
key: after the shared "quota:{key}:{month}" stem one continues ":ep:" and
the other ":total". -/
theorem quotaEpKey_ne_quotaTotalKey (id month meth path : String) :
    quotaEpKey id month meth path ≠ quotaTotalKey id month := by
  intro h
  have h2 := congrArg String.data h
  simp only [quotaEpKey, quotaTotalKey, String.data_append, List.append_assoc] at h2
  have h3 := List.append_cancel_left (List.append_cancel_left h2)
  have h4 := List.append_cancel_left (List.cons.inj h3).2
  simp at h4

/-- CheckRate always leaves the store with the minute bucket incremented,
whatever it decides. -/
theorem CheckRate_m_eq (m : Manager) (now : Time) (kid meth path : String) (rpm : Nat) :
    (m.CheckRate now kid meth path rpm).m =
      { m with redis := rincr m.redis (rateKey kid meth path (now.unix / 60)) } := by
  unfold Manager.CheckRate
  dsimp only
  split <;> rfl

/-- CheckRate denies exactly when the post-increment count exceeds rpm. -/
theorem CheckRate_allowed_iff (m : Manager) (now : Time) (kid meth path : String)
    (rpm : Nat) :
    (m.CheckRate now kid meth path rpm).allowed = false ↔
      rget m.redis (rateKey kid meth path (now.unix / 60)) + 1 > rpm := by
  unfold Manager.CheckRate
  dsimp only
  split
  case isTrue h => simpa using h
  case isFalse h => simpa using h

/-- CheckRate reports reset = seconds until the minute window ends when it
denies. -/
theorem CheckRate_resetSec (m : Manager) (now : Time) (kid meth path : String)
    (rpm : Nat) (h : (m.CheckRate now kid meth path rpm).allowed = false) :
    (m.CheckRate now kid meth path rpm).resetSec = 60 - now.unix % 60 := by
  have hc := (CheckRate_allowed_iff m now kid meth path rpm).mp h
  unfold Manager.CheckRate
  dsimp only
  simp only [rget_rincr_self]
  rw [if_pos hc]

/-- C3: CheckAndConsumeRate increments the current minute-window bucket on
every call, denied calls included, and returns allowed=false exactly when
the post-increment count exceeds the rpm limit. -/
theorem checkRate_consumes_on_deny_and_decides_by_post_count
    (m : Manager) (now : Time) (apiKeyID method path : String) (rpm : Nat) :
    rget (m.CheckRate now apiKeyID method path rpm).m.redis
        (rateKey apiKeyID method path (now.unix / 60)) =
      rget m.redis (rateKey apiKeyID method path (now.unix / 60)) + 1 ∧
    ((m.CheckRate now apiKeyID method path rpm).allowed = false ↔
      rget m.redis (rateKey apiKeyID method path (now.unix / 60)) + 1 > rpm) := by
  refine ⟨?_, CheckRate_allowed_iff m now apiKeyID method path rpm⟩
  rw [CheckRate_m_eq]
  simp

/-- C10: a request with no resolved principal, and likewise a nil Redis
manager, is forwarded to the handler with no rate, quota, or trial check
and with the counter state untouched, in both enforcers. -/
theorem enforcers_pass_through_without_principal_or_manager :
    (∀ (pq : Option Principal) (subActive : Option (String → Bool)) (now : Time)
        (method path : String),
        RedisRateQuotaEnforcerOpt none pq subActive now method path =
          (Outcome.pass, none)) ∧
    (∀ (m : Manager) (subActive : Option (String → Bool)) (now : Time)
        (method path : String),
        RedisRateQuotaEnforcerOpt (some m) none subActive now method path =
          (Outcome.pass, some m)) ∧
    (∀ (st : RQState) (now : Time) (method path : String),
        RateQuotaEnforcer st none now method path = (Outcome.pass, st)) :=
  ⟨fun _ _ _ _ _ => rfl, fun _ _ _ _ _ => rfl, fun _ _ _ _ => rfl⟩

/-- CheckRate allows when the post-increment count is within the limit. -/
theorem CheckRate_allowed_true (m : Manager) (now : Time) (kid meth path : String)
    (rpm : Nat) (h : rget m.redis (rateKey kid meth path (now.unix / 60)) + 1 ≤ rpm) :
    (m.CheckRate now kid meth path rpm).allowed = true := by
  cases hb : (m.CheckRate now kid meth path rpm).allowed
  · exact absurd ((CheckRate_allowed_iff m now kid meth path rpm).mp hb)
      (Nat.not_lt.mpr h)
  · rfl

/-- Reading a monthly total is unaffected by the rate-bucket increment. -/
theorem GetQuota_after_CheckRate (m : Manager) (now : Time) (kid meth path : String)
    (rpm : Nat) (kid2 : String) :
    ((m.CheckRate now kid meth path rpm).m).GetQuota kid2 now = m.GetQuota kid2 now := by
  rw [CheckRate_m_eq]
  unfold Manager.GetQuota
  exact rget_rincr_ne _ _ _ (rateKey_ne_quotaTotalKey _ _ _ _ _ _)

/-- Reading a trial counter is unaffected by the rate-bucket increment. -/
theorem GetTrialUsage_after_CheckRate (m : Manager) (now : Time) (kid meth path : String)
    (rpm : Nat) (acct : String) :
    ((m.CheckRate now kid meth path rpm).m).GetTrialUsage acct = m.GetTrialUsage acct := by
  rw [CheckRate_m_eq]
  unfold Manager.GetTrialUsage
  exact rget_rincr_ne _ _ _ (rateKey_ne_trialKey _ _ _ _ _)

/-- IncQuota increments the monthly total the quota check reads. -/
theorem GetQuota_IncQuota_self (m : Manager) (kid meth path : String) (now : Time) :
    (m.IncQuota kid meth path now).GetQuota kid now = m.GetQuota kid now + 1 := by
  unfold Manager.IncQuota Manager.GetQuota
  dsimp only
  rw [rget_rincr_ne _ _ _ (quotaEpKey_ne_quotaTotalKey _ _ _ _), rget_rincr_self]

/-- IncTrialUsage leaves every monthly total unchanged. -/
theorem GetQuota_IncTrialUsage (m : Manager) (acct kid : String) (now : Time) :
    (m.IncTrialUsage acct).GetQuota kid now = m.GetQuota kid now := by
  unfold Manager.IncTrialUsage Manager.GetQuota
  exact rget_rincr_ne _ _ _ (trialKey_ne_quotaTotalKey _ _ _)

/-- Shape of the Redis enforcer's result when the rate check denies: the
very first check wins, whatever the quota and trial state. -/
theorem RRQE_denyRate (m : Manager) (p : Principal) (subActive : Option (String → Bool))
    (now : Time) (method path : String)
    (h : rget m.redis (rateKey p.apiKeyID method path (now.unix / 60)) + 1 >
      (m.PlanLimits p.planCode).1) :
    RedisRateQuotaEnforcer m p subActive now method path =
      ⟨.denyRate (60 - now.unix % 60),
       { m with redis := rincr m.redis (rateKey p.apiKeyID method path (now.unix / 60)) }⟩ := by
  have ha := (CheckRate_allowed_iff m now p.apiKeyID method path
    (m.PlanLimits p.planCode).1).mpr h
  have hr := CheckRate_resetSec m now p.apiKeyID method path (m.PlanLimits p.planCode).1 ha
  have hm := CheckRate_m_eq m now p.apiKeyID method path (m.PlanLimits p.planCode).1
  unfold RedisRateQuotaEnforcer
  dsimp only
  rw [ha, hr, hm]
  simp

/-- Shape of the Redis enforcer's result when the rate check passes,
overage is disabled and the monthly total has reached the limit: the quota
check denies before the trial check is consulted. -/
theorem RRQE_denyQuota (m : Manager) (p : Principal) (subActive : Option (String → Bool))
    (now : Time) (method path : String)
    (hrate : rget m.redis (rateKey p.apiKeyID method path (now.unix / 60)) + 1 ≤
      (m.PlanLimits p.planCode).1)
    (hov : p.overageEnabled = false)
    (hq : m.GetQuota p.apiKeyID now ≥ (m.PlanLimits p.planCode).2) :
    RedisRateQuotaEnforcer m p subActive now method path =
      ⟨.denyQuota (now.periodEnd - now.unix),
       { m with redis := rincr m.redis (rateKey p.apiKeyID method path (now.unix / 60)) }⟩ := by
  have ha := CheckRate_allowed_true m now p.apiKeyID method path
    (m.PlanLimits p.planCode).1 hrate
  have hm := CheckRate_m_eq m now p.apiKeyID method path (m.PlanLimits p.planCode).1
  have hgq := GetQuota_after_CheckRate m now p.apiKeyID method path
    (m.PlanLimits p.planCode).1 p.apiKeyID
  unfold RedisRateQuotaEnforcer
  dsimp only
  rw [ha, hgq, hov]
  rw [hm]
  simp [hq]

/-- Shape of the Redis enforcer's result when rate and quota pass, no
active or trialing subscription is reported, and the trial allowance is
used up. -/
theorem RRQE_denyTrial (m : Manager) (p : Principal) (subActive : Option (String → Bool))
    (now : Time) (method path : String)
    (hrate : rget m.redis (rateKey p.apiKeyID method path (now.unix / 60)) + 1 ≤
      (m.PlanLimits p.planCode).1)
    (hq : ¬(p.overageEnabled = false ∧
      m.GetQuota p.apiKeyID now ≥ (m.PlanLimits p.planCode).2))
    (hact : subActiveVal subActive p.accountID = false)
    (ht : m.GetTrialUsage p.accountID ≥ 10) :
    RedisRateQuotaEnforcer m p subActive now method path =
      ⟨.denyTrial 3600,
       { m with redis := rincr m.redis (rateKey p.apiKeyID method path (now.unix / 60)) }⟩ := by
  have ha := CheckRate_allowed_true m now p.apiKeyID method path
    (m.PlanLimits p.planCode).1 hrate
  have hm := CheckRate_m_eq m now p.apiKeyID method path (m.PlanLimits p.planCode).1
  have hgq := GetQuota_after_CheckRate m now p.apiKeyID method path
    (m.PlanLimits p.planCode).1 p.apiKeyID
  have hgt := GetTrialUsage_after_CheckRate m now p.apiKeyID method path
    (m.PlanLimits p.planCode).1 p.accountID
  unfold RedisRateQuotaEnforcer
  dsimp only
  rw [ha, hgq, hgt, hact]
  rw [hm]
  simp [hq, ht]

/-- Shape of the Redis enforcer's result when every check passes: the
request is admitted and the post-handler accounting raises the monthly
total the quota check reads by one. -/
theorem RRQE_allow (m : Manager) (p : Principal) (subActive : Option (String → Bool))
    (now : Time) (method path : String)
    (hrate : rget m.redis (rateKey p.apiKeyID method path (now.unix / 60)) + 1 ≤
      (m.PlanLimits p.planCode).1)
    (hq : ¬(p.overageEnabled = false ∧
      m.GetQuota p.apiKeyID now ≥ (m.PlanLimits p.planCode).2))
    (ht : ¬(subActiveVal subActive p.accountID = false ∧
      m.GetTrialUsage p.accountID ≥ 10)) :
    (RedisRateQuotaEnforcer m p subActive now method path).outcome = .allow ∧
    (RedisRateQuotaEnforcer m p subActive now method path).m.GetQuota p.apiKeyID now =
      m.GetQuota p.apiKeyID now + 1 := by
  have ha := CheckRate_allowed_true m now p.apiKeyID method path
    (m.PlanLimits p.planCode).1 hrate
  have hgq := GetQuota_after_CheckRate m now p.apiKeyID method path
    (m.PlanLimits p.planCode).1 p.apiKeyID
  have hgt := GetTrialUsage_after_CheckRate m now p.apiKeyID method path
    (m.PlanLimits p.planCode).1 p.accountID
  unfold RedisRateQuotaEnforcer
  dsimp only
  rw [ha, hgq, hgt]
  rw [if_neg (by simp : ¬(true = false)), if_neg hq, if_neg ht]
  refine ⟨rfl, ?_⟩
  rw [GetQuota_IncTrialUsage, GetQuota_IncQuota_self, hgq]

/-- C4 counterexample: a request failing all three checks in the in-memory
RateQuotaEnforcer (bucket at the 20-rpm lite limit, monthly total at the
450000 lite quota with overage disabled, 10 trial requests used) is denied
with the trial response Retry-After 3600, not the rate-check response
Retry-After 30, because limits.go checks trial, then quota, then rate. -/
theorem in_memory_enforcer_trial_deny_precedes_rate_deny :
    (RateQuotaEnforcer
      ⟨[("key|GET|/v1/alerts", ⟨0, 20⟩)],
       [("key", ⟨0, 2678400, [], 450000, 0⟩)],
       [("acc", ⟨0, 2678400, [], 0, 10⟩)]⟩
      (some ⟨"acc", "key", "lite", "agent", false⟩)
      ⟨30, "202610", 0, 2678400⟩ "GET" "/v1/alerts").1 = Outcome.denyTrial 3600 ∧
    (RateQuotaEnforcer
      ⟨[("key|GET|/v1/alerts", ⟨0, 20⟩)],
       [("key", ⟨0, 2678400, [], 450000, 0⟩)],
       [("acc", ⟨0, 2678400, [], 0, 10⟩)]⟩
      (some ⟨"acc", "key", "lite", "agent", false⟩)
      ⟨30, "202610", 0, 2678400⟩ "GET" "/v1/alerts").1 ≠ Outcome.denyRate 30 := by
  constructor
  · rfl
  · intro h
    exact absurd (rfl.symm.trans h) (by decide)

/-- C4 amended: the Redis-backed enforcer short-circuits in the order
rate check, then monthly-quota check, then trial check — a request that
fails several checks gets the rate response, and one that passes rate but
hits the quota gets the quota response — while the in-memory enforcer
checks trial first: an exhausted trial allowance is denied with
Retry-After 3600 whatever the rate and quota state. -/
theorem admission_check_order_by_enforcer :
    (∀ (m : Manager) (p : Principal) (subActive : Option (String → Bool))
        (now : Time) (method path : String),
      rget m.redis (rateKey p.apiKeyID method path (now.unix / 60)) + 1 >
          (m.PlanLimits p.planCode).1 →
        (RedisRateQuotaEnforcer m p subActive now method path).outcome =
          Outcome.denyRate (60 - now.unix % 60)) ∧
    (∀ (m : Manager) (p : Principal) (subActive : Option (String → Bool))
        (now : Time) (method path : String),
      rget m.redis (rateKey p.apiKeyID method path (now.unix / 60)) + 1 ≤
          (m.PlanLimits p.planCode).1 →
      p.overageEnabled = false →
      m.GetQuota p.apiKeyID now ≥ (m.PlanLimits p.planCode).2 →
        (RedisRateQuotaEnforcer m p subActive now method path).outcome =
          Outcome.denyQuota (now.periodEnd - now.unix)) ∧
    (∀ (st : RQState) (p : Principal) (now : Time) (method path : String)
        (u0 : UsageRec),
      alookup st.usageByAC p.accountID = some u0 →
      u0.periodStart = now.periodStart →
      u0.trialUsed ≥ trialTotalAllowed →
        (RateQuotaEnforcer st (some p) now method path).1 = Outcome.denyTrial 3600) := by
  refine ⟨?_, ?_, ?_⟩
  · intro m p subActive now method path h
    rw [RRQE_denyRate m p subActive now method path h]
  · intro m p subActive now method path hrate hov hq
    rw [RRQE_denyQuota m p subActive now method path hrate hov hq]
  · intro st p now method path u0 hl hp ht
    unfold RateQuotaEnforcer
    dsimp only
    simp only [hl]
    rw [if_pos hp, if_pos ht]

/-- Witness for the amended C4 order statement: both Redis-side conjuncts
and the in-memory conjunct evaluated at concrete inputs. -/
theorem admission_check_order_by_enforcer_witness :
    (RedisRateQuotaEnforcer ⟨[("rl:key:GET:/v1/alerts:0", 20)], 20, 450000, 60, 1350000⟩
      ⟨"acc", "key", "lite", "agent", false⟩ none ⟨30, "202610", 0, 2678400⟩
      "GET" "/v1/alerts").outcome = Outcome.denyRate 30 ∧
    (RedisRateQuotaEnforcer ⟨[("quota:key:202610:total", 450000)], 20, 450000, 60, 1350000⟩
      ⟨"acc", "key", "lite", "agent", false⟩ none ⟨30, "202610", 0, 2678400⟩
      "GET" "/v1/alerts").outcome = Outcome.denyQuota 2678370 ∧
    (RateQuotaEnforcer ⟨[], [], [("acc", ⟨0, 2678400, [], 0, 10⟩)]⟩
      (some ⟨"acc", "key", "lite", "agent", false⟩)
      ⟨30, "202610", 0, 2678400⟩ "GET" "/v1/alerts").1 = Outcome.denyTrial 3600 := by
  refine ⟨?_, ?_, ?_⟩
  · exact admission_check_order_by_enforcer.1 _ _ _ _ _ _ (by decide)
  · exact admission_check_order_by_enforcer.2.1 _ _ _ _ _ _ (by decide) rfl (by decide)
  · exact admission_check_order_by_enforcer.2.2 _ _ _ _ _ ⟨0, 2678400, [], 0, 10⟩
      (by decide) rfl (by decide)

/-- C5 is violated by the in-memory enforcer: it consults no subscription
state at all, so an account with an active or trialing subscription is
still denied with the trial response once ten requests were counted; the
Redis-backed enforcer, by contrast, never fires the trial deny when the
injected subscription checker reports active. -/
theorem trial_cap_fires_despite_active_subscription :
    (RateQuotaEnforcer ⟨[], [], [("acc_trial", ⟨0, 2678400, [], 0, 10⟩)]⟩
      (some ⟨"acc_trial", "key", "lite", "agent", false⟩)
      ⟨30, "202610", 0, 2678400⟩ "GET" "/v1/alerts").1 = Outcome.denyTrial 3600 ∧
    (∀ (m : Manager) (p : Principal) (now : Time) (method path : String) (ra : Nat),
      (RedisRateQuotaEnforcer m p (some (fun _ => true)) now method path).outcome ≠
        Outcome.denyTrial ra) := by
  constructor
  · rfl
  · intro m p now method path ra
    unfold RedisRateQuotaEnforcer
    dsimp only
    split
    · simp
    · split
      · simp
      · simp [subActiveVal]

/-- C6: once the rate check passes, the Redis admission gate denies with
Retry-After = seconds-until-period-end exactly when overage is disabled
and the current monthly total has reached the plan's monthly limit; with
overage enabled the quota deny never fires and an admitted request is
still counted by the post-handler increment of the monthly total. -/
theorem quota_deny_iff_total_at_limit_and_overage_still_counts
    (m : Manager) (p : Principal) (subActive : Option (String → Bool))
    (now : Time) (method path : String)
    (hrate : rget m.redis (rateKey p.apiKeyID method path (now.unix / 60)) + 1 ≤
      (m.PlanLimits p.planCode).1) :
    (p.overageEnabled = false →
      (((RedisRateQuotaEnforcer m p subActive now method path).outcome =
          Outcome.denyQuota (now.periodEnd - now.unix)) ↔
        m.GetQuota p.apiKeyID now ≥ (m.PlanLimits p.planCode).2) ∧
      (∀ ra, (RedisRateQuotaEnforcer m p subActive now method path).outcome =
          Outcome.denyQuota ra → ra = now.periodEnd - now.unix)) ∧
    (p.overageEnabled = true →
      (∀ ra, (RedisRateQuotaEnforcer m p subActive now method path).outcome ≠
        Outcome.denyQuota ra) ∧
      ((RedisRateQuotaEnforcer m p subActive now method path).outcome = Outcome.allow →
        (RedisRateQuotaEnforcer m p subActive now method path).m.GetQuota p.apiKeyID now =
          m.GetQuota p.apiKeyID now + 1)) := by
  constructor
  · intro hov
    by_cases hq : m.GetQuota p.apiKeyID now ≥ (m.PlanLimits p.planCode).2
    · rw [RRQE_denyQuota m p subActive now method path hrate hov hq]
      exact ⟨⟨fun _ => hq, fun _ => rfl⟩, fun ra h => (Outcome.denyQuota.injEq _ _ ▸ h).symm⟩
    · have hnq : ¬(p.overageEnabled = false ∧
          m.GetQuota p.apiKeyID now ≥ (m.PlanLimits p.planCode).2) := fun h => hq h.2
      by_cases htc : subActiveVal subActive p.accountID = false ∧
          m.GetTrialUsage p.accountID ≥ 10
      · rw [RRQE_denyTrial m p subActive now method path hrate hnq htc.1 htc.2]
        exact ⟨⟨fun h => absurd h (by simp), fun h => absurd h hq⟩,
          fun ra h => absurd h (by simp)⟩
      · have ha := RRQE_allow m p subActive now method path hrate hnq htc
        rw [ha.1]
        exact ⟨⟨fun h => absurd h (by simp), fun h => absurd h hq⟩,
          fun ra h => absurd h (by simp)⟩
  · intro hov
    have hnq : ¬(p.overageEnabled = false ∧
        m.GetQuota p.apiKeyID now ≥ (m.PlanLimits p.planCode).2) := by
      rw [hov]; simp
    by_cases htc : subActiveVal subActive p.accountID = false ∧
        m.GetTrialUsage p.accountID ≥ 10
    · rw [RRQE_denyTrial m p subActive now method path hrate hnq htc.1 htc.2]
      exact ⟨fun ra h => absurd h (by simp), fun h => absurd h (by simp)⟩
    · have ha := RRQE_allow m p subActive now method path hrate hnq htc
      rw [ha.1]
      exact ⟨fun ra h => absurd h (by simp), fun _ => ha.2⟩

/-- Witness for the C6 theorem: a lite key whose monthly total sits at the
450000 limit with overage disabled is denied with Retry-After
2678370 = seconds until the period ends; the same store with overage
enabled never sees a quota denial. -/
theorem quota_deny_iff_total_at_limit_witness :
    (RedisRateQuotaEnforcer ⟨[("quota:key:202610:total", 450000)], 20, 450000, 60, 1350000⟩
      ⟨"acc", "key", "lite", "agent", false⟩ none ⟨30, "202610", 0, 2678400⟩
      "GET" "/v1/alerts").outcome = Outcome.denyQuota 2678370 ∧
    (∀ ra, (RedisRateQuotaEnforcer ⟨[("quota:key:202610:total", 450000)], 20, 450000, 60, 1350000⟩
      ⟨"acc", "key", "lite", "agent", true⟩ none ⟨30, "202610", 0, 2678400⟩
      "GET" "/v1/alerts").outcome ≠ Outcome.denyQuota ra) := by
  constructor
  · exact ((quota_deny_iff_total_at_limit_and_overage_still_counts
      ⟨[("quota:key:202610:total", 450000)], 20, 450000, 60, 1350000⟩
      ⟨"acc", "key", "lite", "agent", false⟩ none ⟨30, "202610", 0, 2678400⟩
      "GET" "/v1/alerts" (by decide)).1 rfl).1.mpr (by decide)
  · exact ((quota_deny_iff_total_at_limit_and_overage_still_counts
      ⟨[("quota:key:202610:total", 450000)], 20, 450000, 60, 1350000⟩
      ⟨"acc", "key", "lite", "agent", true⟩ none ⟨30, "202610", 0, 2678400⟩
      "GET" "/v1/alerts" (by decide)).2 rfl).1

/-- Row (key and value) FlushOnce writes for one (account, key) pair; it
depends only on the counter store and the clock, never on the table. -/
def aggWrite (m : Manager) (now : Time) (pr : String × String) : AggKey × AggVal :=
  (⟨pr.1, pr.2, now.periodStart, now.periodEnd⟩,
   ⟨m.GetQuota pr.2 now, m.ListEndpointUsage pr.2 now⟩)

/-- Apply a list of upserts in order. -/
def applyWrites : List (AggKey × AggVal) → AggDB → AggDB
  | [], db => db
  | w :: ws, db => applyWrites ws (upsertAgg db w.1 w.2)

/-- Value of the last write to a key in a write list, if any. -/
def lastWrite : List (AggKey × AggVal) → AggKey → Option AggVal
  | [], _ => none
  | w :: ws, k =>
    match lastWrite ws k with
    | some v => some v
    | none => if k = w.1 then some w.2 else none

/-- Applying a write list reads back as: the last write to the key when
one exists, otherwise the original row. -/
theorem applyWrites_eq_lastWrite (ws : List (AggKey × AggVal)) (db : AggDB) (k : AggKey) :
    applyWrites ws db k =
      match lastWrite ws k with
      | some v => some v
      | none => db k := by
  induction ws generalizing db with
  | nil => rfl
  | cons w ws ih =>
    show applyWrites ws (upsertAgg db w.1 w.2) k = _
    rw [ih]
    cases hlw : lastWrite ws k with
    | some v => simp [lastWrite, hlw]
    | none =>
      by_cases hk : k = w.1
      · subst hk
        simp [lastWrite, hlw, upsertAgg]
      · simp [lastWrite, hlw, upsertAgg, hk]

/-- FlushOnce is the application of its per-pair writes. -/
theorem FlushOnce_eq_applyWrites (pairs : List (String × String)) (m : Manager)
    (now : Time) (db : AggDB) :
    FlushOnce pairs m now db = applyWrites (pairs.map (aggWrite m now)) db := by
  induction pairs generalizing db with
  | nil => rfl
  | cons p ps ih =>
    show FlushOnce ps m now _ = _
    rw [ih]
    rfl

/-- Any recorded last write for the key of the pair (a, b) carries exactly
the counter-store values of key b, because only pairs equal to (a, b)
write that aggregate key. -/
theorem lastWrite_map_aggWrite (m : Manager) (now : Time)
    (ps : List (String × String)) (a b : String) :
    lastWrite (ps.map (aggWrite m now)) ⟨a, b, now.periodStart, now.periodEnd⟩ = none ∨
    lastWrite (ps.map (aggWrite m now)) ⟨a, b, now.periodStart, now.periodEnd⟩ =
      some ⟨m.GetQuota b now, m.ListEndpointUsage b now⟩ := by
  induction ps with
  | nil => exact Or.inl rfl
  | cons p ps ih =>
    simp only [List.map_cons, lastWrite]
    rcases ih with h | h
    · simp only [h]
      by_cases hk : (⟨a, b, now.periodStart, now.periodEnd⟩ : AggKey) = (aggWrite m now p).1
      · refine Or.inr ?_
        have hb : p.2 = b := by
          have := congrArg AggKey.apiKeyID hk
          simpa [aggWrite] using this.symm
        rw [if_pos hk]
        simp [aggWrite, hb]
      · exact Or.inl (if_neg hk)
    · simp [h]

/-- A pair that occurs in the flush list leaves a recorded write with the
counter-store values. -/
theorem lastWrite_map_aggWrite_mem (m : Manager) (now : Time)
    (ps : List (String × String)) (a b : String) (h : (a, b) ∈ ps) :
    lastWrite (ps.map (aggWrite m now)) ⟨a, b, now.periodStart, now.periodEnd⟩ =
      some ⟨m.GetQuota b now, m.ListEndpointUsage b now⟩ := by
  induction ps with
  | nil => cases h
  | cons p ps ih =>
    simp only [List.map_cons, lastWrite]
    rcases List.mem_cons.mp h with h1 | h1
    · rcases lastWrite_map_aggWrite m now ps a b with h2 | h2
      · subst h1
        simp only [h2]
        simp [aggWrite]
      · simp only [h2]
    · simp only [ih h1]

/-- C8: with the counter store unchanged, running the aggregator flush
twice back-to-back yields exactly the usage_aggregates table of a single
run, and each flushed row holds the counter-store total and per-endpoint
map themselves (replaced, not added to). -/
theorem flush_twice_equals_flush_once_and_rows_replaced
    (pairs : List (String × String)) (m : Manager) (now : Time) (db : AggDB) :
    FlushOnce pairs m now (FlushOnce pairs m now db) = FlushOnce pairs m now db ∧
    (∀ acct kid, (acct, kid) ∈ pairs →
      FlushOnce pairs m now db ⟨acct, kid, now.periodStart, now.periodEnd⟩ =
        some ⟨m.GetQuota kid now, m.ListEndpointUsage kid now⟩) := by
  constructor
  · funext k
    rw [FlushOnce_eq_applyWrites, FlushOnce_eq_applyWrites,
      applyWrites_eq_lastWrite, applyWrites_eq_lastWrite]
    cases hlw : lastWrite (pairs.map (aggWrite m now)) k with
    | some v => simp [hlw]
    | none => simp [hlw]
  · intro acct kid h
    rw [FlushOnce_eq_applyWrites, applyWrites_eq_lastWrite,
      lastWrite_map_aggWrite_mem m now pairs acct kid h]

/-- Witness for C8: one active key with a monthly total of 2 and one
endpoint counter; the double flush equals the single flush and the row
holds total 2 with the per-endpoint map replaced. -/
theorem flush_twice_equals_flush_once_witness :
    (FlushOnce [("acc", "k1")]
        ⟨[("quota:k1:202610:total", 2), ("quota:k1:202610:ep:GET:/v1/alerts", 2)],
         20, 450000, 60, 1350000⟩ ⟨30, "202610", 0, 2678400⟩
        (FlushOnce [("acc", "k1")]
          ⟨[("quota:k1:202610:total", 2), ("quota:k1:202610:ep:GET:/v1/alerts", 2)],
           20, 450000, 60, 1350000⟩ ⟨30, "202610", 0, 2678400⟩ (fun _ => none)) =
      FlushOnce [("acc", "k1")]
        ⟨[("quota:k1:202610:total", 2), ("quota:k1:202610:ep:GET:/v1/alerts", 2)],
         20, 450000, 60, 1350000⟩ ⟨30, "202610", 0, 2678400⟩ (fun _ => none)) ∧
    FlushOnce [("acc", "k1")]
        ⟨[("quota:k1:202610:total", 2), ("quota:k1:202610:ep:GET:/v1/alerts", 2)],
         20, 450000, 60, 1350000⟩ ⟨30, "202610", 0, 2678400⟩ (fun _ => none)
        ⟨"acc", "k1", 0, 2678400⟩ =
      some ⟨2, [("GET:/v1/alerts", 2)]⟩ := by
  constructor
  · exact (flush_twice_equals_flush_once_and_rows_replaced [("acc", "k1")]
      ⟨[("quota:k1:202610:total", 2), ("quota:k1:202610:ep:GET:/v1/alerts", 2)],
       20, 450000, 60, 1350000⟩ ⟨30, "202610", 0, 2678400⟩ (fun _ => none)).1
  · exact ((flush_twice_equals_flush_once_and_rows_replaced [("acc", "k1")]
      ⟨[("quota:k1:202610:total", 2), ("quota:k1:202610:ep:GET:/v1/alerts", 2)],
       20, 450000, 60, 1350000⟩ ⟨30, "202610", 0, 2678400⟩ (fun _ => none)).2
      "acc" "k1" (by decide)).trans (by decide)

/-- C7: on an invoice.finalized event whose subscription row is found, no
meter report is made when overage is disabled; with overage enabled, no
report is made when the summed current-month totals do not exceed the
plan's monthly quota, and when they do, exactly one report is made against
the subscription item of the invoice line carrying the configured metered
price, with quantity max(0, total - quota) = total - quota. -/
theorem invoice_finalized_reports_overage_once
    (cfg : String) (m : Manager) (keyIDsOf : String → List String) (now : Time)
    (db : BillingDB) (evtID subID : String) (lines : List InvoiceLine) (row : SubRow)
    (hfind : db.subscriptions.find? (fun r => r.stripeSubscriptionID = subID) = some row) :
    (row.overageEnabled = false →
      (stripeWebhook cfg (some m) keyIDsOf now db true evtID
        (.invoiceFinalized (some subID) lines)).reports = []) ∧
    (row.overageEnabled = true →
      ((m.SumQuotas (keyIDsOf row.accountID) now : Int) ≤
          ((m.PlanLimits row.planCode).2 : Int) →
        (stripeWebhook cfg (some m) keyIDsOf now db true evtID
          (.invoiceFinalized (some subID) lines)).reports = []) ∧
      (∀ li, lines.find? (fun l => l.priceID = some cfg) = some li →
        li.subItem ≠ "" →
        ((m.SumQuotas (keyIDsOf row.accountID) now : Int) -
            ((m.PlanLimits row.planCode).2 : Int) > 0 →
          (stripeWebhook cfg (some m) keyIDsOf now db true evtID
            (.invoiceFinalized (some subID) lines)).reports =
            [(li.subItem, max 0 ((m.SumQuotas (keyIDsOf row.accountID) now : Int) -
              ((m.PlanLimits row.planCode).2 : Int)))]))) := by
  constructor
  · intro hov
    simp only [stripeWebhook, hfind]
    simp [hov]
  · intro hov
    constructor
    · intro hle
      simp only [stripeWebhook, hfind]
      simp only [Bool.true_eq_false, if_neg (by simp : ¬(True : Prop) = False)]
      simp [hov, Int.not_lt.mpr (by omega : (m.SumQuotas (keyIDsOf row.accountID) now : Int) -
        ((m.PlanLimits row.planCode).2 : Int) ≤ 0)]
    · intro li hli hne hpos
      simp only [stripeWebhook, hfind]
      have hmax : max 0 ((m.SumQuotas (keyIDsOf row.accountID) now : Int) -
          ((m.PlanLimits row.planCode).2 : Int)) =
          (m.SumQuotas (keyIDsOf row.accountID) now : Int) -
          ((m.PlanLimits row.planCode).2 : Int) := max_eq_right hpos.le
      simp [hov, hli, hne, hpos, hmax]

/-- Witness for C7, mirroring the spec's overage scenario: monthly quota
lowered to 5, keys k1 and k2 with totals 2 and 6 (sum 8), one invoice line
carrying the configured metered price with item si_X: exactly one report
(si_X, 3) is issued. -/
theorem invoice_finalized_reports_overage_once_witness :
    (stripeWebhook "price_met"
      (some ⟨[("quota:k1:202610:total", 2), ("quota:k2:202610:total", 6)],
             20, 5, 60, 1350000⟩)
      (fun _ => ["k1", "k2"]) ⟨30, "202610", 0, 2678400⟩
      ⟨[⟨"acc1", "lite", true, "cus_1", "sub_X", "active", 0, 0⟩], []⟩
      true "evt_9" (.invoiceFinalized (some "sub_X")
        [⟨some "price_met", "si_X"⟩])).reports = [("si_X", 3)] := by
  have h := ((invoice_finalized_reports_overage_once "price_met"
    ⟨[("quota:k1:202610:total", 2), ("quota:k2:202610:total", 6)], 20, 5, 60, 1350000⟩
    (fun _ => ["k1", "k2"]) ⟨30, "202610", 0, 2678400⟩
    ⟨[⟨"acc1", "lite", true, "cus_1", "sub_X", "active", 0, 0⟩], []⟩
    "evt_9" "sub_X" [⟨some "price_met", "si_X"⟩]
    ⟨"acc1", "lite", true, "cus_1", "sub_X", "active", 0, 0⟩ (by decide)).2 rfl).2
    ⟨some "price_met", "si_X"⟩ (by decide) (by decide) (by decide)
  exact h.trans (by decide)

/-- C1 fails in the code: the webhook handler never inserts into
processed_events — for every event, signature-valid or not, the
processed_events table is left exactly as it was — and replaying the
integration test's customer.subscription.deleted event evt_test_1 answers
200 twice while processed_events stays empty, where
TestStripeWebhookProcessedEvent expects a row keyed evt_test_1. -/
theorem webhook_never_records_processed_events :
    (∀ (cfg : String) (mgrq : Option Manager) (keyIDsOf : String → List String)
        (now : Time) (db : BillingDB) (sigValid : Bool) (evtID : String)
        (data : EventData),
      (stripeWebhook cfg mgrq keyIDsOf now db sigValid evtID data).db.processedEvents =
        db.processedEvents) ∧
    ((stripeWebhook "" none (fun _ => []) ⟨30, "202610", 0, 2678400⟩
        ⟨[⟨"acc1", "lite", false, "cus_1", "sub_1", "active", 0, 0⟩], []⟩
        true "evt_test_1" (.subDeleted "sub_1")).statusCode = 200 ∧
      (stripeWebhook "" none (fun _ => []) ⟨30, "202610", 0, 2678400⟩
        (stripeWebhook "" none (fun _ => []) ⟨30, "202610", 0, 2678400⟩
          ⟨[⟨"acc1", "lite", false, "cus_1", "sub_1", "active", 0, 0⟩], []⟩
          true "evt_test_1" (.subDeleted "sub_1")).db
        true "evt_test_1" (.subDeleted "sub_1")).statusCode = 200 ∧
      (stripeWebhook "" none (fun _ => []) ⟨30, "202610", 0, 2678400⟩
        (stripeWebhook "" none (fun _ => []) ⟨30, "202610", 0, 2678400⟩
          ⟨[⟨"acc1", "lite", false, "cus_1", "sub_1", "active", 0, 0⟩], []⟩
          true "evt_test_1" (.subDeleted "sub_1")).db
        true "evt_test_1" (.subDeleted "sub_1")).db =
        ⟨[⟨"acc1", "lite", false, "cus_1", "sub_1", "canceled", 0, 0⟩], []⟩) := by
  constructor
  · intro cfg mgrq keyIDsOf now db sigValid evtID data
    unfold stripeWebhook
    dsimp only
    split
    · rfl
    · cases data with
      | checkoutCompleted sp cust sub ref plan =>
        cases sp
        · dsimp only
          split <;> rfl
        · rfl
      | subCreatedOrUpdated a b c d e f g => rfl
      | invoiceFinalized subq lines =>
        cases subq with
        | none => rfl
        | some sid =>
          dsimp only
          cases hf : db.subscriptions.find? (fun r => r.stripeSubscriptionID = sid) with
          | none => simp [hf]
          | some row =>
            simp only [hf]
            split
            · cases mgrq with
              | none => rfl
              | some mgr =>
                dsimp only
                split
                · split
                  · split <;> rfl
                  · rfl
                · rfl
            · rfl
      | subDeleted sid => rfl
      | otherEvent => rfl
  · refine ⟨rfl, rfl, ?_⟩
    decide

/-- C2 fails in the code: with the database configured, a key whose
api_keys row is revoked, a key with no row at all, and a key whose secret
fails hash verification all make VerifyAPIKey return the synthetic
acc_dev principal instead of Unauthenticated — the fallback is guarded by
no pass-through flag. -/
theorem verify_api_key_falls_back_instead_of_denying :
    (VerifyAPIKey "sc_live_k1_secretsecret".toList "agent" true (fun _ _ => true)
        [⟨"uuid1".toList, "acc1".toList, "k1".toList, "hash1".toList,
          "agent".toList, "revoked".toList⟩] [] =
      VerifyOutcome.principal ⟨"acc_dev", "key_dev", "lite", "agent", false⟩) ∧
    (VerifyAPIKey "sc_live_k1_secretsecret".toList "agent" true (fun _ _ => true)
        [] [] =
      VerifyOutcome.principal ⟨"acc_dev", "key_dev", "lite", "agent", false⟩) ∧
    (VerifyAPIKey "sc_live_k1_secretsecret".toList "agent" true (fun _ _ => false)
        [⟨"uuid1".toList, "acc1".toList, "k1".toList, "hash1".toList,
          "agent".toList, "active".toList⟩] [] =
      VerifyOutcome.principal ⟨"acc_dev", "key_dev", "lite", "agent", false⟩) := by
  refine ⟨rfl, rfl, rfl⟩

/-- Underscore-free character lists are returned whole by the splitter. -/
theorem splitUnders_no_under (s : Str) (h : '_' ∉ s) : splitUnders s = [s] := by
  induction s with
  | nil => rfl
  | cons c cs ih =>
    have hc : c ≠ '_' := fun he => h (he ▸ List.mem_cons_self c cs)
    have hcs : '_' ∉ cs := fun hm => h (List.mem_cons_of_mem c hm)
    simp [splitUnders, hc, ih hcs]

/-- Splitting an underscore-free segment followed by an underscore peels
off exactly that segment. -/
theorem splitUnders_append (a b : Str) (ha : '_' ∉ a) :
    splitUnders (a ++ '_' :: b) = a :: splitUnders b := by
  induction a with
  | nil => simp [splitUnders]
  | cons c cs ih =>
    have hc : c ≠ '_' := fun he => ha (he ▸ List.mem_cons_self c cs)
    have hcs : '_' ∉ cs := fun hm => ha (List.mem_cons_of_mem c hm)
    simp [splitUnders, hc, ih hcs]

/-- C9 counterexample: with the environment string a_b (and tokens of the
generated 12- and 32-character shapes), ParseAPIKey on the generated raw
key returns ok=false, because the raw key splits on the underscore inside
the environment into five parts. -/
theorem parse_api_key_fails_on_underscore_env :
    ParseAPIKey (GenerateAPIKey "a_b".toList "AAAAAAAAAAAA".toList
      "BBBBBBBBBBBBBBBBBBBBBBBBBBBBBBBB".toList) = none ∧
    "AAAAAAAAAAAA".toList.length = 12 ∧
    "BBBBBBBBBBBBBBBBBBBBBBBBBBBBBBBB".toList.length = 32 := by
  refine ⟨by decide, by decide, by decide⟩

/-- C9 amended: whenever the environment string and the two generated
tokens contain no underscore, parsing the generated raw key
sc_{env}_{id}_{secret} succeeds and returns exactly the same environment,
id and secret. -/
theorem generate_parse_roundtrip_without_underscores (env id secret : Str)
    (henv : '_' ∉ env) (hid : '_' ∉ id) (hsec : '_' ∉ secret) :
    ParseAPIKey (GenerateAPIKey env id secret) = some (env, id, secret) := by
  unfold ParseAPIKey GenerateAPIKey
  rw [show "sc".toList ++ ['_'] ++ env ++ ['_'] ++ id ++ ['_'] ++ secret =
      "sc".toList ++ '_' :: (env ++ '_' :: (id ++ '_' :: secret)) by simp]
  rw [splitUnders_append "sc".toList _ (by decide),
      splitUnders_append env _ henv, splitUnders_append id _ hid,
      splitUnders_no_under secret hsec]
  rfl

/-- Witness for the amended C9 round-trip at a concrete underscore-free
environment and tokens of the generated lengths. -/
theorem generate_parse_roundtrip_witness :
    ParseAPIKey (GenerateAPIKey "live".toList "AAAAAAAAAAAA".toList
      "BBBBBBBBBBBBBBBBBBBBBBBBBBBBBBBB".toList) =
      some ("live".toList, "AAAAAAAAAAAA".toList,
        "BBBBBBBBBBBBBBBBBBBBBBBBBBBBBBBB".toList) :=
  generate_parse_roundtrip_without_underscores _ _ _ (by decide) (by decide) (by decide)

end SupplyChain
